import Mathlib

/-!
Verification of the deterministic encounter-seed subsystem of the
`adventure` package: the `GameSeed` codec (`adventure/rng.py`) and the
seeded random source built on top of it.

Modelling conventions:
* python `int` is modelled by `ℤ` (by `ℕ` where the quantified claims
  restrict the value to non-negative integers and the source manipulates
  it with `^^^`/`>>>`/`<<<`);
* python `float` is modelled by `ℚ`; python's `round` (round-half-to-even)
  is `pythonRound` below.  On the two-decimal percentages the spec admits,
  exact rational arithmetic and double arithmetic round identically, since
  the accumulated representation error is far below one half;
* python strings are Lean `String`s; `StatRange` field access is record
  field access.
-/

namespace Adventure

/-- Python's built-in `round` to the nearest integer, ties to even,
on exact rationals. -/
def pythonRound (q : ℚ) : ℤ :=
  if q - ⌊q⌋ < 1 / 2 then ⌊q⌋
  else if 1 / 2 < q - ⌊q⌋ then ⌊q⌋ + 1
  else if 2 ∣ ⌊q⌋ then ⌊q⌋ else ⌊q⌋ + 1

/-- Modelled from the spec (§3 DATA MODEL): `StatRange` is defined in
`adventure/adventureresult.py`, a file that is not among the sources; the
spec describes it as an immutable value type with a stat-type tag, integer
min/max stats and a real `win_percent`.  `rng.py` compares `stat_type`
against the string `"hp"` and constructs it with the string `"dipl"`, so
the tag is modelled as a `String`. -/
structure StatRange where
  stat_type : String
  min_stat : ℤ
  max_stat : ℤ
  win_percent : ℚ
deriving DecidableEq, Repr

/-- `GameSeed` from `adventure/rng.py`: a message ID plus a `StatRange`. -/
structure GameSeed where
  message_id : ℤ
  stat_range : StatRange
deriving DecidableEq, Repr

namespace GameSeed

/-- `GameSeed.TIMESTAMP_SHIFT = 38`. -/
def TIMESTAMP_SHIFT : ℕ := 38

/-- `GameSeed.HP_SHIFT = TIMESTAMP_SHIFT - 1`. -/
def HP_SHIFT : ℕ := TIMESTAMP_SHIFT - 1

/-- `GameSeed.MIN_STAT_SHIFT = HP_SHIFT - 14`. -/
def MIN_STAT_SHIFT : ℕ := HP_SHIFT - 14

/-- `GameSeed.MAX_STAT_SHIFT = MIN_STAT_SHIFT - 14`. -/
def MAX_STAT_SHIFT : ℕ := MIN_STAT_SHIFT - 14

/-- `hp_or_diplo`: `1 if self.stat_range.stat_type == "hp" else 0`. -/
def hp_or_diplo (g : GameSeed) : ℤ :=
  if g.stat_range.stat_type = "hp" then 1 else 0

/-- `min_stat`: `max(int(self.stat_range.min_stat), 0)`. -/
def min_stat (g : GameSeed) : ℤ :=
  max g.stat_range.min_stat 0

/-- `max_stat`: `min(int(self.stat_range.max_stat), 16383)`. -/
def max_stat (g : GameSeed) : ℤ :=
  min g.stat_range.max_stat 16383

/-- `timestamp`: `self.message_id >> self.TIMESTAMP_SHIFT` (python's `>>`
on `int` is floor division by the power of two, i.e. euclidean division
here). -/
def timestamp (g : GameSeed) : ℤ :=
  g.message_id / 2 ^ TIMESTAMP_SHIFT

/-- `win_pct`: `self.stat_range.win_percent`. -/
def win_pct (g : GameSeed) : ℚ :=
  g.stat_range.win_percent

/-- `__int__`: `(timestamp << TIMESTAMP_SHIFT) + (hp << HP_SHIFT)
+ (min_s << MIN_STAT_SHIFT) + (max_s << MAX_STAT_SHIFT)
+ round(win_pct * 100)` (python's `<<` on `int` is exact multiplication
by the power of two). -/
def toInt (g : GameSeed) : ℤ :=
  g.timestamp * 2 ^ TIMESTAMP_SHIFT + (g.hp_or_diplo * 2 ^ HP_SHIFT
    + g.min_stat * 2 ^ MIN_STAT_SHIFT + g.max_stat * 2 ^ MAX_STAT_SHIFT
    + pythonRound (g.win_pct * 100))

/-- `GameSeed.from_int`, transcribed step for step (the claims quantify
over non-negative inputs, so the bit operations live on `ℕ`): shift the
timestamp out, then repeatedly strip each field with the
`number ^= field << SHIFT` idiom of the source. -/
def from_int (number : ℕ) : GameSeed :=
  let message_id := number >>> TIMESTAMP_SHIFT
  let number1 := number ^^^ (message_id <<< TIMESTAMP_SHIFT)
  let message_id2 := message_id <<< TIMESTAMP_SHIFT
  let hp_or_diplo := number1 >>> HP_SHIFT
  let number2 := number1 ^^^ (hp_or_diplo <<< HP_SHIFT)
  let min_stat := number2 >>> MIN_STAT_SHIFT
  let number3 := number2 ^^^ (min_stat <<< MIN_STAT_SHIFT)
  let max_stat := number3 >>> MAX_STAT_SHIFT
  let number4 := number3 ^^^ (max_stat <<< MAX_STAT_SHIFT)
  let win_percent : ℚ := (number4 : ℚ) / 100
  let stat_type := if hp_or_diplo ≠ 0 then "hp" else "dipl"
  ⟨(message_id2 : ℤ),
   ⟨stat_type, (min_stat : ℤ), (max_stat : ℤ), win_percent⟩⟩

end GameSeed

end Adventure

namespace Adventure

lemma xor_shift_strip (x s : ℕ) : x ^^^ ((x >>> s) <<< s) = x % 2 ^ s := by
  apply Nat.eq_of_testBit_eq
  intro i
  rw [Nat.testBit_xor, Nat.testBit_shiftLeft, Nat.testBit_mod_two_pow]
  rcases Nat.lt_or_ge i s with h | h
  · simp [Nat.not_le.mpr h, h]
  · have hsi : s + (i - s) = i := by omega
    have hs : s ≤ i := h
    simp [hs, Nat.not_lt.mpr hs, Nat.testBit_shiftRight, hsi]

lemma pythonRound_intCast (z : ℤ) : pythonRound (z : ℚ) = z := by
  unfold pythonRound
  rw [Int.floor_intCast]
  norm_num

lemma pythonRound_natCast (w : ℕ) : pythonRound (w : ℚ) = w := by
  have := pythonRound_intCast (w : ℤ)
  rwa [Int.cast_natCast] at this

lemma floor_le_pythonRound (q : ℚ) : ⌊q⌋ ≤ pythonRound q := by
  unfold pythonRound
  split
  · exact le_refl _
  · split
    · omega
    · split
      · exact le_refl _
      · omega

lemma pythonRound_le_floor_add_one (q : ℚ) : pythonRound q ≤ ⌊q⌋ + 1 := by
  unfold pythonRound
  split
  · omega
  · split
    · omega
    · split
      · omega
      · omega

lemma pythonRound_nonneg (q : ℚ) (h : 0 ≤ q) : 0 ≤ pythonRound q := by
  have h1 : (0 : ℤ) ≤ ⌊q⌋ := Int.floor_nonneg.mpr h
  have := floor_le_pythonRound q
  omega

namespace GameSeed

/-- Closed form of `from_int`: each field is the corresponding bit slice. -/
lemma from_int_eq (n : ℕ) :
    from_int n =
      ⟨(((n >>> 38) <<< 38 : ℕ) : ℤ),
       ⟨if (n % 2 ^ 38) >>> 37 ≠ 0 then "hp" else "dipl",
        (((n % 2 ^ 37) >>> 23 : ℕ) : ℤ),
        (((n % 2 ^ 23) >>> 9 : ℕ) : ℤ),
        ((n % 2 ^ 9 : ℕ) : ℚ) / 100⟩⟩ := by
  have e1 : TIMESTAMP_SHIFT = 38 := rfl
  have e2 : HP_SHIFT = 37 := rfl
  have e3 : MIN_STAT_SHIFT = 23 := rfl
  have e4 : MAX_STAT_SHIFT = 9 := rfl
  simp only [from_int, e1, e2, e3, e4]
  rw [xor_shift_strip n 38]
  rw [xor_shift_strip (n % 2 ^ 38) 37]
  rw [Nat.mod_mod_of_dvd n (by norm_num : (2:ℕ) ^ 37 ∣ 2 ^ 38)]
  rw [xor_shift_strip (n % 2 ^ 37) 23]
  rw [Nat.mod_mod_of_dvd n (by norm_num : (2:ℕ) ^ 23 ∣ 2 ^ 37)]
  rw [xor_shift_strip (n % 2 ^ 23) 9]
  rw [Nat.mod_mod_of_dvd n (by norm_num : (2:ℕ) ^ 9 ∣ 2 ^ 23)]

end GameSeed

end Adventure

namespace Adventure

namespace GameSeed

/-- An encoded seed, written as the cast of a natural-number packing,
when every clamped field is non-negative. -/
lemma toInt_eq_natCast (e : ℕ) (s : StatRange) (hmax : 0 ≤ s.max_stat)
    (hw0 : 0 ≤ pythonRound (s.win_percent * 100)) :
    toInt ⟨(e : ℤ), s⟩ =
      ((e >>> 38) * 2 ^ 38
        + ((if s.stat_type = "hp" then 1 else 0) * 2 ^ 37
          + (max s.min_stat 0).toNat * 2 ^ 23
          + (min s.max_stat 16383).toNat * 2 ^ 9
          + (pythonRound (s.win_percent * 100)).toNat) : ℕ) := by
  have h1 : ((max s.min_stat 0).toNat : ℤ) = max s.min_stat 0 :=
    Int.toNat_of_nonneg (le_max_right _ _)
  have h2 : ((min s.max_stat 16383).toNat : ℤ) = min s.max_stat 16383 :=
    Int.toNat_of_nonneg (le_min hmax (by norm_num))
  have h3 : ((pythonRound (s.win_percent * 100)).toNat : ℤ)
      = pythonRound (s.win_percent * 100) := Int.toNat_of_nonneg hw0
  have h4 : ((e >>> 38 : ℕ) : ℤ) = (e : ℤ) / 2 ^ 38 := by
    rw [Nat.shiftRight_eq_div_pow]
    rw [Int.ofNat_ediv]
    norm_num
  have e1 : TIMESTAMP_SHIFT = 38 := rfl
  have e2 : HP_SHIFT = 37 := rfl
  have e3 : MIN_STAT_SHIFT = 23 := rfl
  have e4 : MAX_STAT_SHIFT = 9 := rfl
  simp only [toInt, timestamp, hp_or_diplo, min_stat, max_stat, win_pct,
    e1, e2, e3, e4]
  push_cast
  rw [h1, h2, h3, h4]
  by_cases hst : s.stat_type = "hp" <;> simp [hst]

/-- `from_int` applied to an explicitly packed bit pattern recovers the
fields, provided each fits its slice. -/
lemma from_int_packed (ts hp mn mx w : ℕ) (hhp : hp ≤ 1) (hmn : mn ≤ 16383)
    (hmx : mx ≤ 16383) (hw : w ≤ 511) :
    from_int (ts * 2 ^ 38 + (hp * 2 ^ 37 + mn * 2 ^ 23 + mx * 2 ^ 9 + w)) =
      ⟨((ts * 2 ^ 38 : ℕ) : ℤ),
       ⟨if hp ≠ 0 then "hp" else "dipl", (mn : ℤ), (mx : ℤ), (w : ℚ) / 100⟩⟩ := by
  set n := ts * 2 ^ 38 + (hp * 2 ^ 37 + mn * 2 ^ 23 + mx * 2 ^ 9 + w) with hn
  rw [from_int_eq]
  have hlow : hp * 2 ^ 37 + mn * 2 ^ 23 + mx * 2 ^ 9 + w < 2 ^ 38 := by
    norm_num at hhp hmn hmx hw ⊢
    omega
  have hmod38 : n % 2 ^ 38 = hp * 2 ^ 37 + mn * 2 ^ 23 + mx * 2 ^ 9 + w := by
    omega
  have hdiv38 : n / 2 ^ 38 = ts := by omega
  have hmod37 : n % 2 ^ 37 = mn * 2 ^ 23 + mx * 2 ^ 9 + w := by
    norm_num at hhp hmn hmx hw ⊢
    omega
  have hmod23 : n % 2 ^ 23 = mx * 2 ^ 9 + w := by
    norm_num at hhp hmn hmx hw ⊢
    omega
  have hmod9 : n % 2 ^ 9 = w := by
    norm_num at hhp hmn hmx hw ⊢
    omega
  have hsr : ∀ a k : ℕ, a >>> k = a / 2 ^ k := fun a k => Nat.shiftRight_eq_div_pow a k
  have hsl : ∀ a k : ℕ, a <<< k = a * 2 ^ k := fun a k => Nat.shiftLeft_eq a k
  rw [hsr, hsl, hdiv38, hmod38, hmod37, hmod23, hmod9]
  have hf1 : (hp * 2 ^ 37 + mn * 2 ^ 23 + mx * 2 ^ 9 + w) >>> 37 = hp := by
    rw [hsr]
    norm_num at hmn hmx hw ⊢
    omega
  have hf2 : (mn * 2 ^ 23 + mx * 2 ^ 9 + w) >>> 23 = mn := by
    rw [hsr]
    norm_num at hmx hw ⊢
    omega
  have hf3 : (mx * 2 ^ 9 + w) >>> 9 = mx := by
    rw [hsr]
    norm_num at hw ⊢
    omega
  rw [hf1, hf2, hf3]

end GameSeed

end Adventure

namespace Adventure

namespace GameSeed

/-- Casting a shifted natural into `ℤ` commutes with the euclidean
division by the same power of two. -/
lemma natCast_shiftRight (e : ℕ) : ((e >>> 38 : ℕ) : ℤ) = (e : ℤ) / 2 ^ 38 := by
  rw [Nat.shiftRight_eq_div_pow, Int.ofNat_ediv]
  norm_num

/-- Decoding an encoded seed, field by field: the round trip keeps the
clamped stat fields whenever each fits its slice. -/
lemma from_int_toInt (e : ℕ) (s : StatRange)
    (hmin : s.min_stat ≤ 16383) (hmax : 0 ≤ s.max_stat)
    (hw0 : 0 ≤ pythonRound (s.win_percent * 100))
    (hw1 : pythonRound (s.win_percent * 100) ≤ 511) :
    from_int (toInt ⟨(e : ℤ), s⟩).toNat =
      ⟨(((e >>> 38) <<< 38 : ℕ) : ℤ),
       ⟨if s.stat_type = "hp" then "hp" else "dipl",
        max s.min_stat 0, min s.max_stat 16383,
        ((pythonRound (s.win_percent * 100) : ℤ) : ℚ) / 100⟩⟩ := by
  rw [toInt_eq_natCast e s hmax hw0, Int.toNat_natCast]
  rw [from_int_packed (e >>> 38)
      (if s.stat_type = "hp" then 1 else 0)
      (max s.min_stat 0).toNat (min s.max_stat 16383).toNat
      (pythonRound (s.win_percent * 100)).toNat
      (by split <;> norm_num)
      (by rw [Int.toNat_le]; exact max_le hmin (by norm_num))
      (by rw [Int.toNat_le]; exact min_le_right _ _)
      (by rw [Int.toNat_le]; exact_mod_cast hw1)]
  have h1 : ((max s.min_stat 0).toNat : ℤ) = max s.min_stat 0 :=
    Int.toNat_of_nonneg (le_max_right _ _)
  have h2 : ((min s.max_stat 16383).toNat : ℤ) = min s.max_stat 16383 :=
    Int.toNat_of_nonneg (le_min hmax (by norm_num))
  have h3 : ((pythonRound (s.win_percent * 100)).toNat : ℤ)
      = pythonRound (s.win_percent * 100) := Int.toNat_of_nonneg hw0
  have h4 : (((pythonRound (s.win_percent * 100)).toNat : ℕ) : ℚ)
      = ((pythonRound (s.win_percent * 100) : ℤ) : ℚ) := by
    exact_mod_cast congrArg (fun z : ℤ => (z : ℚ)) h3
  have h5 : ((if s.stat_type = "hp" then (1:ℕ) else 0) ≠ 0)
      = (s.stat_type = "hp") := by
    by_cases hst : s.stat_type = "hp" <;> simp [hst]
  simp only [GameSeed.mk.injEq, StatRange.mk.injEq]
  refine ⟨?_, ?_, h1, h2, ?_⟩
  · rw [Nat.shiftLeft_eq]
  · by_cases hst : s.stat_type = "hp" <;> simp [hst]
  · rw [h4]

end GameSeed

end Adventure

namespace Adventure

namespace GameSeed

set_option maxRecDepth 8000 in
lemma reencode (n : ℕ) : toInt (from_int n) = (n : ℤ) := by
  rw [from_int_eq]
  have e1 : TIMESTAMP_SHIFT = 38 := rfl
  have e2 : HP_SHIFT = 37 := rfl
  have e3 : MIN_STAT_SHIFT = 23 := rfl
  have e4 : MAX_STAT_SHIFT = 9 := rfl
  simp only [toInt, timestamp, hp_or_diplo, min_stat, max_stat, win_pct,
    e1, e2, e3, e4]
  have hb : (n % 2 ^ 38) >>> 37 ≤ 1 := by
    rw [Nat.shiftRight_eq_div_pow]
    have : n % 2 ^ 38 < 2 ^ 38 := Nat.mod_lt _ (by norm_num)
    omega
  have hts : (((n >>> 38) <<< 38 : ℕ) : ℤ) / (2 : ℤ) ^ 38 = ((n >>> 38 : ℕ) : ℤ) := by
    rw [Nat.shiftLeft_eq, Int.ofNat_mul]
    push_cast
    rw [Int.mul_ediv_cancel _ (by norm_num)]
  have hhp : (if (if (n % 2 ^ 38) >>> 37 ≠ 0 then "hp" else "dipl") = "hp"
        then (1:ℤ) else 0) = (((n % 2 ^ 38) >>> 37 : ℕ) : ℤ) := by
    rcases Nat.lt_or_ge ((n % 2 ^ 38) >>> 37) 1 with h | h
    · have h0 : (n % 2 ^ 38) >>> 37 = 0 := by omega
      rw [h0]
      decide
    · have h1 : (n % 2 ^ 38) >>> 37 = 1 := by omega
      rw [h1]
      decide
  have hmn : max (((n % 2 ^ 37) >>> 23 : ℕ) : ℤ) 0 = (((n % 2 ^ 37) >>> 23 : ℕ) : ℤ) :=
    max_eq_left (Int.natCast_nonneg _)
  have hmxb : (n % 2 ^ 23) >>> 9 ≤ 16383 := by
    rw [Nat.shiftRight_eq_div_pow]
    have : n % 2 ^ 23 < 2 ^ 23 := Nat.mod_lt _ (by norm_num)
    omega
  have hmx : min (((n % 2 ^ 23) >>> 9 : ℕ) : ℤ) 16383 = (((n % 2 ^ 23) >>> 9 : ℕ) : ℤ) :=
    min_eq_left (by exact_mod_cast hmxb)
  have hw : pythonRound (((n % 2 ^ 9 : ℕ) : ℚ) / 100 * 100) = ((n % 2 ^ 9 : ℕ) : ℤ) := by
    rw [div_mul_cancel₀ _ (by norm_num : (100:ℚ) ≠ 0)]
    exact pythonRound_natCast _
  rw [hts, hhp, hmn, hmx, hw]
  have harith : (n >>> 38) * 2 ^ 38 + ((n % 2 ^ 38) >>> 37 * 2 ^ 37
      + (n % 2 ^ 37) >>> 23 * 2 ^ 23 + ((n % 2 ^ 23) >>> 9 * 2 ^ 9 + n % 2 ^ 9)) = n := by
    simp only [Nat.shiftRight_eq_div_pow]
    have d1 : n % 2 ^ 38 % 2 ^ 37 = n % 2 ^ 37 :=
      Nat.mod_mod_of_dvd n (by norm_num)
    have d2 : n % 2 ^ 37 % 2 ^ 23 = n % 2 ^ 23 :=
      Nat.mod_mod_of_dvd n (by norm_num)
    have d3 : n % 2 ^ 23 % 2 ^ 9 = n % 2 ^ 9 :=
      Nat.mod_mod_of_dvd n (by norm_num)
    omega
  calc ((n >>> 38 : ℕ) : ℤ) * 2 ^ 38 + ((((n % 2 ^ 38) >>> 37 : ℕ) : ℤ) * 2 ^ 37
        + (((n % 2 ^ 37) >>> 23 : ℕ) : ℤ) * 2 ^ 23 + (((n % 2 ^ 23) >>> 9 : ℕ) : ℤ) * 2 ^ 9
        + ((n % 2 ^ 9 : ℕ) : ℤ))
      = (((n >>> 38) * 2 ^ 38 + ((n % 2 ^ 38) >>> 37 * 2 ^ 37
        + (n % 2 ^ 37) >>> 23 * 2 ^ 23 + ((n % 2 ^ 23) >>> 9 * 2 ^ 9 + n % 2 ^ 9)) : ℕ) : ℤ) := by
        push_cast
        ring
    _ = (n : ℤ) := by rw [harith]

end GameSeed

end Adventure

namespace Adventure

/-- Modelled from the spec (§4.2 SeededRandom): the engine behind the
repository's `Random` wrapper is python's `random.Random` base class,
which is not part of this repository's sources.  The spec leaves the
algorithm an implementation freedom ("exact algorithm choice is an
implementation freedom as long as it is seed-deterministic"), requiring
only a deterministic state machine whose state is initialized from the
integer value of the seed.  We model one concrete such engine: the state
is a 64-bit word seeded from the integer seed and advanced by a
linear-congruential step; each draw consumes one step and outputs the
upper 32 bits. -/
def engineInit (seed : ℤ) : ℕ := (seed % 2 ^ 64).toNat

/-- Modelled from the spec: one deterministic step of the engine. -/
def engineNext (st : ℕ) : ℕ := (st * 6364136223846793005 + 1442695040888963407) % 2 ^ 64

/-- Modelled from the spec: the 32-bit output word of a state. -/
def engineOut (st : ℕ) : ℕ := st >>> 32

/-- Modelled from the spec: the PRNG operations the spec names for
`SeededRandom` (integer in an inclusive range, n random bits, uniform
real in `[0,1)`). -/
inductive RandOp where
  | randint (a b : ℤ)
  | getrandbits (k : ℕ)
  | uniform
deriving DecidableEq, Repr

/-- Modelled from the spec: running one operation against an engine state
returns the drawn value (as a rational) and the successor state. -/
def runOp (op : RandOp) (st : ℕ) : ℚ × ℕ :=
  match op with
  | RandOp.randint a b =>
      let st2 := engineNext st
      (((a + (engineOut st2 : ℤ) % (b - a + 1) : ℤ) : ℚ), st2)
  | RandOp.getrandbits k =>
      let st2 := engineNext st
      (((engineOut st2 % 2 ^ k : ℕ) : ℚ), st2)
  | RandOp.uniform =>
      let st2 := engineNext st
      ((engineOut st2 : ℚ) / 2 ^ 32, st2)

/-- Modelled from the spec: running a call sequence, threading the state. -/
def runSeq (ops : List RandOp) (st : ℕ) : List ℚ × ℕ :=
  match ops with
  | [] => ([], st)
  | op :: rest =>
      let r := runOp op st
      let tail := runSeq rest r.2
      (r.1 :: tail.1, tail.2)

/-- The repository's `Random` subclass (`adventure/rng.py` lines 8-19): it
stores the originating `GameSeed` in `internal_seed` and seeds the
underlying engine with `int(seed)`. -/
structure Random where
  internal_seed : GameSeed
  state : ℕ
deriving DecidableEq, Repr

/-- `Random.__init__`: keep the seed object, initialize the engine from
its integer value. -/
def Random.ofSeed (seed : GameSeed) : Random :=
  ⟨seed, engineInit (GameSeed.toInt seed)⟩

/-- `getstate` (inherited engine-state snapshot used in `dev.py`). -/
def Random.getstate (r : Random) : ℕ := r.state

/-- `setstate` (inherited engine-state restore used in `dev.py`). -/
def Random.setstate (r : Random) (st : ℕ) : Random := ⟨r.internal_seed, st⟩

/-- Drawing once: the value and the advanced generator. -/
def Random.draw (r : Random) (op : RandOp) : ℚ × Random :=
  ((runOp op r.state).1, ⟨r.internal_seed, (runOp op r.state).2⟩)

/-- The output sequence of a call sequence issued to a generator. -/
def Random.outputs (r : Random) (ops : List RandOp) : List ℚ :=
  (runSeq ops r.state).1

end Adventure

namespace Adventure

/-- C1 counterexample: the claim fails as stated, because the decoder's
tag for the diplomacy axis is the string `"dipl"`: encoding a `StatRange`
whose `stat_type` is the literal string `"diplomacy"` (with
`min_stat = max_stat = 0`, `win_percent = 0`, `event_id = 0`) and decoding
the result yields a `stat_range` whose `stat_type` is `"dipl"`, not an
equal `StatRange`. -/
theorem C1_counterexample :
    (GameSeed.from_int ((GameSeed.toInt ⟨((0 : ℕ) : ℤ), ⟨"diplomacy", 0, 0, 0⟩⟩).toNat)).stat_range
      ≠ ⟨"diplomacy", 0, 0, 0⟩ := by
  have hw : pythonRound ((0 : ℚ) * 100) = ((0 : ℤ)) := by
    rw [show (0 : ℚ) * 100 = ((0 : ℤ) : ℚ) by norm_num, pythonRound_intCast]
  rw [GameSeed.from_int_toInt 0 ⟨"diplomacy", 0, 0, 0⟩ (by norm_num) (by norm_num)
    (by rw [show (⟨"diplomacy", 0, 0, 0⟩ : StatRange).win_percent * 100 = (0 : ℚ) * 100 from rfl, hw])
    (by rw [show (⟨"diplomacy", 0, 0, 0⟩ : StatRange).win_percent * 100 = (0 : ℚ) * 100 from rfl, hw]; norm_num)]
  dsimp only
  intro hcontra
  have hs : (if ("diplomacy" : String) = "hp" then "hp" else "dipl") = "diplomacy" :=
    congrArg StatRange.stat_type hcontra
  rw [if_neg (by decide : ¬("diplomacy" : String) = "hp")] at hs
  exact absurd hs (by decide)

/-- C1 (amended): round-trip identity on the codec's concrete tags: for
`stat_type ∈ {"hp", "dipl"}` (the decoder's name for the diplomacy axis
is the string `"dipl"`), `0 ≤ min_stat ≤ max_stat ≤ 16383`,
`win_percent = k/100` with `k ≤ 100`, and any `event_id ≥ 0`, decoding the
encoded seed returns a `stat_range` equal to the original `StatRange`. -/
theorem C1_round_trip (st : String) (hst : st = "hp" ∨ st = "dipl")
    (mn mx : ℤ) (hmn0 : 0 ≤ mn) (hmnmx : mn ≤ mx) (hmx : mx ≤ 16383)
    (k : ℕ) (hk : k ≤ 100) (e : ℕ) :
    (GameSeed.from_int ((GameSeed.toInt ⟨(e : ℤ), ⟨st, mn, mx, (k : ℚ) / 100⟩⟩).toNat)).stat_range
      = ⟨st, mn, mx, (k : ℚ) / 100⟩ := by
  have hw : pythonRound (((k : ℚ) / 100) * 100) = (k : ℤ) := by
    rw [div_mul_cancel₀ _ (by norm_num : (100:ℚ) ≠ 0)]
    exact pythonRound_natCast k
  rw [GameSeed.from_int_toInt e ⟨st, mn, mx, (k : ℚ) / 100⟩
    (le_trans hmnmx hmx) (le_trans hmn0 hmnmx)
    (by rw [show (⟨st, mn, mx, (k : ℚ) / 100⟩ : StatRange).win_percent * 100 = ((k : ℚ) / 100) * 100 from rfl, hw]; exact Int.natCast_nonneg k)
    (by rw [show (⟨st, mn, mx, (k : ℚ) / 100⟩ : StatRange).win_percent * 100 = ((k : ℚ) / 100) * 100 from rfl, hw]; exact_mod_cast le_trans hk (by norm_num))]
  dsimp only
  simp only [StatRange.mk.injEq]
  refine ⟨?_, max_eq_left hmn0, min_eq_left hmx, ?_⟩
  · rcases hst with h | h <;> simp [h]
  · rw [hw]
    push_cast
    ring

/-- C1 witness: the round trip at a concrete in-range instance. -/
theorem C1_witness :
    (GameSeed.from_int ((GameSeed.toInt ⟨((7 : ℕ) : ℤ), ⟨"dipl", 3, 44, ((25 : ℕ) : ℚ) / 100⟩⟩).toNat)).stat_range
      = ⟨"dipl", 3, 44, ((25 : ℕ) : ℚ) / 100⟩ :=
  C1_round_trip "dipl" (Or.inr rfl) 3 44 (by norm_num) (by norm_num) (by norm_num) 25
    (by norm_num) 7

end Adventure

namespace Adventure

/-- Helper: `round(0.5 * 100) = 50` in the codec's rounding. -/
lemma pythonRound_half_hundred : pythonRound ((1 : ℚ) / 2 * 100) = 50 := by
  rw [show (1 : ℚ) / 2 * 100 = ((50 : ℤ) : ℚ) by norm_num, pythonRound_intCast]

/-- C2 counterexample: encoding `StatRange(hp, -5, 50000, 0.5)` (with
`event_id = 0`) does not truncate `max_stat` to its low 14 bits: the
encoded integer differs from the value the claim predicts with a
`max_stat` field of `1248` (and also from the one with `848`, the actual
value of `50000 mod 16384`); the encoder clamps the field to `16383`
instead. -/
theorem C2_counterexample :
    GameSeed.toInt ⟨((0 : ℕ) : ℤ), ⟨"hp", -5, 50000, 1 / 2⟩⟩
        ≠ 1 * 2 ^ 37 + 0 * 2 ^ 23 + 1248 * 2 ^ 9 + 50
      ∧ GameSeed.toInt ⟨((0 : ℕ) : ℤ), ⟨"hp", -5, 50000, 1 / 2⟩⟩
        ≠ 1 * 2 ^ 37 + 0 * 2 ^ 23 + 848 * 2 ^ 9 + 50
      ∧ GameSeed.max_stat ⟨((0 : ℕ) : ℤ), ⟨"hp", -5, 50000, 1 / 2⟩⟩ = 16383 := by
  have e1 : GameSeed.TIMESTAMP_SHIFT = 38 := rfl
  have e2 : GameSeed.HP_SHIFT = 37 := rfl
  have e3 : GameSeed.MIN_STAT_SHIFT = 23 := rfl
  have e4 : GameSeed.MAX_STAT_SHIFT = 9 := rfl
  simp only [GameSeed.toInt, GameSeed.timestamp, GameSeed.hp_or_diplo,
    GameSeed.min_stat, GameSeed.max_stat, GameSeed.win_pct, e1, e2, e3, e4]
  rw [pythonRound_half_hundred]
  norm_num

/-- C2 (amended): out-of-range handling on encode: for every `event_id`
and every `max_stat > 16383`, encoding `StatRange(hp, -5, max_stat, 0.5)`
is total (no error), encodes `min_stat` as `0`, and encodes the max-stat
field **clamped to `16383`** (`min(max_stat, 16383)`), not truncated to
its low 14 bits. -/
theorem C2_clamp (e : ℕ) (mx : ℤ) (hmx : 16383 < mx) :
    GameSeed.toInt ⟨(e : ℤ), ⟨"hp", -5, mx, 1 / 2⟩⟩
      = ((e >>> 38 : ℕ) : ℤ) * 2 ^ 38 + 1 * 2 ^ 37 + 0 * 2 ^ 23 + 16383 * 2 ^ 9 + 50 := by
  have e1 : GameSeed.TIMESTAMP_SHIFT = 38 := rfl
  have e2 : GameSeed.HP_SHIFT = 37 := rfl
  have e3 : GameSeed.MIN_STAT_SHIFT = 23 := rfl
  have e4 : GameSeed.MAX_STAT_SHIFT = 9 := rfl
  simp only [GameSeed.toInt, GameSeed.timestamp, GameSeed.hp_or_diplo,
    GameSeed.min_stat, GameSeed.max_stat, GameSeed.win_pct, e1, e2, e3, e4]
  rw [pythonRound_half_hundred, GameSeed.natCast_shiftRight,
    min_eq_right hmx.le, max_eq_right (by norm_num : (-5 : ℤ) ≤ 0)]
  norm_num
  ring

/-- C2 witness: the amended claim at the concrete input of the spec. -/
theorem C2_witness :
    GameSeed.toInt ⟨((0 : ℕ) : ℤ), ⟨"hp", -5, 50000, 1 / 2⟩⟩
      = (((0 : ℕ) >>> 38 : ℕ) : ℤ) * 2 ^ 38 + 1 * 2 ^ 37 + 0 * 2 ^ 23 + 16383 * 2 ^ 9 + 50 :=
  C2_clamp 0 50000 (by norm_num)

end Adventure

namespace Adventure

/-- Helper: dividing a 38-bit-aligned packed natural by `2 ^ 38` in `ℤ`
recovers the packed value. -/
lemma natCast_shiftLeft_div (a : ℕ) :
    (((a <<< 38 : ℕ)) : ℤ) / (2 : ℤ) ^ 38 = (a : ℤ) := by
  rw [Nat.shiftLeft_eq, Int.ofNat_mul]
  push_cast
  rw [Int.mul_ediv_cancel _ (by norm_num)]

/-- C3 counterexample: the claim fails as stated.  First, the
`message_id` carried by the decoded `GameSeed` is `(n >> 38) << 38`,
not `event_id >> 38`: at `event_id = 2 ^ 38` (with an all-zero
`StatRange`) the decoded `message_id` is `2 ^ 38`, not `1`.  Second, the
claim quantifies over every `StatRange`: at `event_id = 0` with
`min_stat = 2 ^ 20` the min-stat field overflows into the timestamp bits,
and neither the decoded `message_id` nor the decoded timestamp equals
`0 >> 38 = 0`. -/
theorem C3_counterexample :
    ((GameSeed.from_int ((GameSeed.toInt ⟨((2 ^ 38 : ℕ) : ℤ), ⟨"dipl", 0, 0, 0⟩⟩).toNat)).message_id
        ≠ (((2 ^ 38 : ℕ) >>> 38 : ℕ) : ℤ))
      ∧ ((GameSeed.from_int ((GameSeed.toInt ⟨((0 : ℕ) : ℤ), ⟨"dipl", 2 ^ 20, 0, 0⟩⟩).toNat)).message_id
        ≠ (((0 : ℕ) >>> 38 : ℕ) : ℤ))
      ∧ ((GameSeed.from_int ((GameSeed.toInt ⟨((0 : ℕ) : ℤ), ⟨"dipl", 2 ^ 20, 0, 0⟩⟩).toNat)).timestamp
        ≠ (((0 : ℕ) >>> 38 : ℕ) : ℤ)) := by
  have hw : pythonRound ((0 : ℚ) * 100) = ((0 : ℤ)) := by
    rw [show (0 : ℚ) * 100 = ((0 : ℤ) : ℚ) by norm_num, pythonRound_intCast]
  have h1 : GameSeed.toInt ⟨((2 ^ 38 : ℕ) : ℤ), ⟨"dipl", 0, 0, 0⟩⟩
      = (((2 ^ 38 : ℕ)) : ℤ) := by
    rw [GameSeed.toInt_eq_natCast (2 ^ 38) ⟨"dipl", 0, 0, 0⟩ (by norm_num)
      (by rw [show (⟨"dipl", 0, 0, 0⟩ : StatRange).win_percent * 100 = (0 : ℚ) * 100 from rfl, hw])]
    rw [show (⟨"dipl", 0, 0, 0⟩ : StatRange).win_percent * 100 = (0 : ℚ) * 100 from rfl, hw]
    rw [if_neg (by decide : ¬("dipl" : String) = "hp")]
    norm_num [Nat.shiftRight_eq_div_pow]
  have h2 : GameSeed.toInt ⟨((0 : ℕ) : ℤ), ⟨"dipl", (2 ^ 20 : ℤ), 0, 0⟩⟩
      = (((2 ^ 43 : ℕ)) : ℤ) := by
    rw [GameSeed.toInt_eq_natCast 0 ⟨"dipl", (2 ^ 20 : ℤ), 0, 0⟩ (by norm_num)
      (by rw [show (⟨"dipl", (2 ^ 20 : ℤ), 0, 0⟩ : StatRange).win_percent * 100 = (0 : ℚ) * 100 from rfl, hw])]
    rw [show (⟨"dipl", (2 ^ 20 : ℤ), 0, 0⟩ : StatRange).win_percent * 100 = (0 : ℚ) * 100 from rfl, hw]
    rw [if_neg (by decide : ¬("dipl" : String) = "hp")]
    norm_num [Nat.shiftRight_eq_div_pow]
  rw [h1, h2, Int.toNat_natCast, GameSeed.from_int_eq, GameSeed.from_int_eq]
  refine ⟨?_, ?_, ?_⟩
  · dsimp only
    norm_num [Nat.shiftRight_eq_div_pow, Nat.shiftLeft_eq]
  · dsimp only
    norm_num [Nat.shiftRight_eq_div_pow, Nat.shiftLeft_eq]
  · show ((((2 ^ 43 : ℕ) >>> 38) <<< 38 : ℕ) : ℤ) / 2 ^ GameSeed.TIMESTAMP_SHIFT ≠ _
    rw [show GameSeed.TIMESTAMP_SHIFT = 38 from rfl, natCast_shiftLeft_div]
    norm_num [Nat.shiftRight_eq_div_pow]

end Adventure

namespace Adventure

/-- C3 (amended): timestamp preservation: for every `event_id ≥ 0` and
every `StatRange` whose encoded fields fit their slices (clamped
`min_stat ≤ 16383`, `max_stat ≥ 0`, rounded win percent in `[0, 511]`),
decoding the encoded seed recovers the timestamp bits: the decoded
`GameSeed`'s `timestamp()` equals `event_id >> 38`, and its `message_id`
is `(event_id >> 38) << 38`. -/
theorem C3_timestamp (e : ℕ) (s : StatRange)
    (hmin : s.min_stat ≤ 16383) (hmax : 0 ≤ s.max_stat)
    (hw0 : 0 ≤ pythonRound (s.win_percent * 100))
    (hw1 : pythonRound (s.win_percent * 100) ≤ 511) :
    (GameSeed.from_int ((GameSeed.toInt ⟨(e : ℤ), s⟩).toNat)).timestamp = ((e >>> 38 : ℕ) : ℤ)
      ∧ (GameSeed.from_int ((GameSeed.toInt ⟨(e : ℤ), s⟩).toNat)).message_id
        = (((e >>> 38) <<< 38 : ℕ) : ℤ) := by
  rw [GameSeed.from_int_toInt e s hmin hmax hw0 hw1]
  refine ⟨?_, rfl⟩
  show ((((e >>> 38) <<< 38 : ℕ)) : ℤ) / 2 ^ GameSeed.TIMESTAMP_SHIFT = _
  rw [show GameSeed.TIMESTAMP_SHIFT = 38 from rfl, natCast_shiftLeft_div]

/-- C3 witness: timestamp preservation at a concrete event id above
`2 ^ 38` and a concrete in-range `StatRange`. -/
theorem C3_witness :
    (GameSeed.from_int ((GameSeed.toInt ⟨((2 ^ 38 + 5 : ℕ) : ℤ), ⟨"hp", 3, 7, ((50 : ℕ) : ℚ) / 100⟩⟩).toNat)).timestamp
        = (((2 ^ 38 + 5 : ℕ) >>> 38 : ℕ) : ℤ)
      ∧ (GameSeed.from_int ((GameSeed.toInt ⟨((2 ^ 38 + 5 : ℕ) : ℤ), ⟨"hp", 3, 7, ((50 : ℕ) : ℚ) / 100⟩⟩).toNat)).message_id
        = ((((2 ^ 38 + 5 : ℕ) >>> 38) <<< 38 : ℕ) : ℤ) :=
  C3_timestamp (2 ^ 38 + 5) ⟨"hp", 3, 7, ((50 : ℕ) : ℚ) / 100⟩ (by norm_num) (by norm_num)
    (by
      rw [show (⟨"hp", 3, 7, ((50 : ℕ) : ℚ) / 100⟩ : StatRange).win_percent * 100
          = ((50 : ℕ) : ℚ) / 100 * 100 from rfl,
        div_mul_cancel₀ _ (by norm_num : (100:ℚ) ≠ 0), pythonRound_natCast]
      norm_num)
    (by
      rw [show (⟨"hp", 3, 7, ((50 : ℕ) : ℚ) / 100⟩ : StatRange).win_percent * 100
          = ((50 : ℕ) : ℚ) / 100 * 100 from rfl,
        div_mul_cancel₀ _ (by norm_num : (100:ℚ) ≠ 0), pythonRound_natCast]
      norm_num)

end Adventure

namespace Adventure

/-- The encode bit-layout formula written exactly as the claim and spec
§4.1 state it: `((event_id >> 38) << 38) + (hp_flag << 37)
+ (max(int(min_stat), 0) << 23) + (min(int(max_stat), 16383) << 9)
+ round(win_percent * 100)`. -/
def specEncode (event_id : ℤ) (s : StatRange) : ℤ :=
  (event_id / 2 ^ 38) * 2 ^ 38
    + (if s.stat_type = "hp" then 1 else 0) * 2 ^ 37
    + (max s.min_stat 0) * 2 ^ 23
    + (min s.max_stat 16383) * 2 ^ 9
    + pythonRound (s.win_percent * 100)

/-- C4: encode bit layout: for every `event_id ≥ 0` and every
`StatRange`, `int(GameSeed(event_id, stats))` equals the claim's formula
`specEncode`, and the encoder is a pure function: equal inputs give equal
integers. -/
theorem C4_layout (e : ℤ) (he : 0 ≤ e) (s : StatRange) :
    GameSeed.toInt ⟨e, s⟩ = specEncode e s
      ∧ (∀ e2 : ℤ, ∀ s2 : StatRange, e = e2 → s = s2 →
          GameSeed.toInt ⟨e, s⟩ = GameSeed.toInt ⟨e2, s2⟩) := by
  constructor
  · have e1 : GameSeed.TIMESTAMP_SHIFT = 38 := rfl
    have e2 : GameSeed.HP_SHIFT = 37 := rfl
    have e3 : GameSeed.MIN_STAT_SHIFT = 23 := rfl
    have e4 : GameSeed.MAX_STAT_SHIFT = 9 := rfl
    simp only [GameSeed.toInt, GameSeed.timestamp, GameSeed.hp_or_diplo,
      GameSeed.min_stat, GameSeed.max_stat, GameSeed.win_pct, specEncode,
      e1, e2, e3, e4]
    ring
  · rintro e2 s2 rfl rfl
    rfl

/-- C4 witness: the layout equality at a concrete seed. -/
theorem C4_witness :
    GameSeed.toInt ⟨5, ⟨"hp", 1, 2, 1 / 2⟩⟩ = specEncode 5 ⟨"hp", 1, 2, 1 / 2⟩
      ∧ (∀ e2 : ℤ, ∀ s2 : StatRange, (5 : ℤ) = e2 → (⟨"hp", 1, 2, 1 / 2⟩ : StatRange) = s2 →
          GameSeed.toInt ⟨5, ⟨"hp", 1, 2, 1 / 2⟩⟩ = GameSeed.toInt ⟨e2, s2⟩) :=
  C4_layout 5 (by norm_num) ⟨"hp", 1, 2, 1 / 2⟩

/-- C5: the spec's concrete example: for
`event_id = 123456789012345` and `stats = StatRange(hp, 10, 500, 0.73)`,
the timestamp component is `449`, the hp flag is `1`, the encoded seed's
low 9 bits are `73`, and decoding the seed returns exactly
`StatRange(hp, 10, 500, 0.73)`. -/
theorem C5_example :
    GameSeed.timestamp ⟨((123456789012345 : ℕ) : ℤ), ⟨"hp", 10, 500, 73 / 100⟩⟩ = 449
      ∧ GameSeed.hp_or_diplo ⟨((123456789012345 : ℕ) : ℤ), ⟨"hp", 10, 500, 73 / 100⟩⟩ = 1
      ∧ (GameSeed.toInt ⟨((123456789012345 : ℕ) : ℤ), ⟨"hp", 10, 500, 73 / 100⟩⟩).toNat % 2 ^ 9 = 73
      ∧ (GameSeed.from_int ((GameSeed.toInt ⟨((123456789012345 : ℕ) : ℤ), ⟨"hp", 10, 500, 73 / 100⟩⟩).toNat)).stat_range
        = ⟨"hp", 10, 500, 73 / 100⟩ := by
  have hw : pythonRound ((⟨"hp", 10, 500, 73 / 100⟩ : StatRange).win_percent * 100) = (73 : ℤ) := by
    rw [show (⟨"hp", 10, 500, (73 : ℚ) / 100⟩ : StatRange).win_percent * 100
        = ((73 : ℕ) : ℚ) / 100 * 100 by norm_num,
      div_mul_cancel₀ _ (by norm_num : (100:ℚ) ≠ 0), pythonRound_natCast]
    norm_num
  refine ⟨?_, ?_, ?_, ?_⟩
  · show ((123456789012345 : ℕ) : ℤ) / 2 ^ GameSeed.TIMESTAMP_SHIFT = 449
    rw [show GameSeed.TIMESTAMP_SHIFT = 38 from rfl, ← GameSeed.natCast_shiftRight]
    norm_num [Nat.shiftRight_eq_div_pow]
  · simp [GameSeed.hp_or_diplo]
  · rw [GameSeed.toInt_eq_natCast 123456789012345 ⟨"hp", 10, 500, 73 / 100⟩
      (by norm_num) (by rw [hw]; norm_num)]
    rw [Int.toNat_natCast, hw]
    rw [if_pos (rfl : ("hp" : String) = "hp")]
    norm_num [Nat.shiftRight_eq_div_pow,
      show Int.toNat 10 = 10 from rfl, show Int.toNat 500 = 500 from rfl,
      show Int.toNat 73 = 73 from rfl]
  · rw [GameSeed.from_int_toInt 123456789012345 ⟨"hp", 10, 500, 73 / 100⟩
      (by norm_num) (by norm_num) (by rw [hw]; norm_num) (by rw [hw]; norm_num)]
    dsimp only
    rw [hw]
    simp only [StatRange.mk.injEq]
    refine ⟨by simp, by norm_num, by norm_num, by norm_num⟩

end Adventure

namespace Adventure

/-- Lower bound on an encoded seed: the stat payload is non-negative when
the clamped max stat and the win percentage are. -/
lemma toInt_lower (e : ℕ) (s : StatRange) (hmx0 : 0 ≤ s.max_stat)
    (hwp0 : 0 ≤ s.win_percent) :
    ((e >>> 38 : ℕ) : ℤ) * 2 ^ 38 ≤ GameSeed.toInt ⟨(e : ℤ), s⟩ := by
  have e1 : GameSeed.TIMESTAMP_SHIFT = 38 := rfl
  have e2 : GameSeed.HP_SHIFT = 37 := rfl
  have e3 : GameSeed.MIN_STAT_SHIFT = 23 := rfl
  have e4 : GameSeed.MAX_STAT_SHIFT = 9 := rfl
  simp only [GameSeed.toInt, GameSeed.timestamp, GameSeed.hp_or_diplo,
    GameSeed.min_stat, GameSeed.max_stat, GameSeed.win_pct, e1, e2, e3, e4]
  rw [GameSeed.natCast_shiftRight]
  have h1 : (0:ℤ) ≤ (if s.stat_type = "hp" then (1:ℤ) else 0) := by split <;> norm_num
  have h2 : (0:ℤ) ≤ max s.min_stat 0 := le_max_right _ _
  have h3 : (0:ℤ) ≤ min s.max_stat 16383 := le_min hmx0 (by norm_num)
  have h4 : (0:ℤ) ≤ pythonRound (s.win_percent * 100) :=
    pythonRound_nonneg _ (by positivity)
  nlinarith

/-- Upper bound on an encoded seed: the stat payload stays below `2 ^ 38`
when the clamped min stat is in range and the win percentage is at
most one. -/
lemma toInt_upper (e : ℕ) (s : StatRange) (hmn1 : s.min_stat ≤ 16383)
    (hwp1 : s.win_percent ≤ 1) :
    GameSeed.toInt ⟨(e : ℤ), s⟩ < (((e >>> 38 : ℕ) : ℤ) + 1) * 2 ^ 38 := by
  have e1 : GameSeed.TIMESTAMP_SHIFT = 38 := rfl
  have e2 : GameSeed.HP_SHIFT = 37 := rfl
  have e3 : GameSeed.MIN_STAT_SHIFT = 23 := rfl
  have e4 : GameSeed.MAX_STAT_SHIFT = 9 := rfl
  simp only [GameSeed.toInt, GameSeed.timestamp, GameSeed.hp_or_diplo,
    GameSeed.min_stat, GameSeed.max_stat, GameSeed.win_pct, e1, e2, e3, e4]
  rw [GameSeed.natCast_shiftRight]
  have h1 : (if s.stat_type = "hp" then (1:ℤ) else 0) ≤ 1 := by split <;> norm_num
  have h2 : max s.min_stat 0 ≤ 16383 := max_le hmn1 (by norm_num)
  have h3 : min s.max_stat 16383 ≤ 16383 := min_le_right _ _
  have h4 : pythonRound (s.win_percent * 100) ≤ 101 := by
    have hf : ⌊s.win_percent * 100⌋ ≤ 100 := by
      have : s.win_percent * 100 ≤ ((100 : ℤ) : ℚ) := by push_cast; nlinarith
      calc ⌊s.win_percent * 100⌋ ≤ ⌊((100 : ℤ) : ℚ)⌋ := Int.floor_le_floor this
        _ = 100 := Int.floor_intCast 100
    have := pythonRound_le_floor_add_one (s.win_percent * 100)
    omega
  nlinarith

/-- C7: monotone-with-time ordering: if `e1 >> 38 < e2 >> 38` and both
stat ranges have `min_stat, max_stat ∈ [0, 16383]` and
`win_percent ∈ [0, 1]`, the seed encoded for `e2` is strictly larger than
the seed encoded for `e1`. -/
theorem C7_monotone (e1 e2 : ℕ) (s1 s2 : StatRange)
    (h : e1 >>> 38 < e2 >>> 38)
    (h1min1 : s1.min_stat ≤ 16383)
    (h1wp1 : s1.win_percent ≤ 1)
    (h2max0 : 0 ≤ s2.max_stat)
    (h2wp0 : 0 ≤ s2.win_percent)
    (h1min0 : 0 ≤ s1.min_stat) (h1max0 : 0 ≤ s1.max_stat)
    (h1max1 : s1.max_stat ≤ 16383) (h1wp0 : 0 ≤ s1.win_percent)
    (h2min0 : 0 ≤ s2.min_stat) (h2min1 : s2.min_stat ≤ 16383)
    (h2max1 : s2.max_stat ≤ 16383) (h2wp1 : s2.win_percent ≤ 1) :
    GameSeed.toInt ⟨(e1 : ℤ), s1⟩ < GameSeed.toInt ⟨(e2 : ℤ), s2⟩ := by
  have hu := toInt_upper e1 s1 h1min1 h1wp1
  have hl := toInt_lower e2 s2 h2max0 h2wp0
  have hc : ((e1 >>> 38 : ℕ) : ℤ) + 1 ≤ ((e2 >>> 38 : ℕ) : ℤ) := by
    exact_mod_cast h
  nlinarith

/-- C7 witness: strict ordering at concrete seeds one timestamp tick
apart. -/
theorem C7_witness :
    GameSeed.toInt ⟨((5 : ℕ) : ℤ), ⟨"hp", 16383, 16383, 1⟩⟩
      < GameSeed.toInt ⟨((2 ^ 38 : ℕ) : ℤ), ⟨"dipl", 0, 0, 0⟩⟩ :=
  C7_monotone 5 (2 ^ 38) ⟨"hp", 16383, 16383, 1⟩ ⟨"dipl", 0, 0, 0⟩
    (by norm_num [Nat.shiftRight_eq_div_pow]) (by norm_num) (by norm_num)
    (by norm_num) (by norm_num) (by norm_num) (by norm_num) (by norm_num)
    (by norm_num) (by norm_num) (by norm_num) (by norm_num) (by norm_num)

end Adventure

namespace Adventure

/-- C9: re-encode identity: for every non-negative integer `n`,
`int(GameSeed.from_int(n)) == n`: decode is a full right inverse of
encode on all non-negative integers. -/
theorem C9_reencode (n : ℕ) : GameSeed.toInt (GameSeed.from_int n) = (n : ℤ) :=
  GameSeed.reencode n

/-- C10: decode postcondition: for every non-negative integer `n`,
`GameSeed.from_int(n)` returns a `StatRange` whose `stat_type` is exactly
`"hp"` or `"dipl"` (never `"diplomacy"`), whose `min_stat` and `max_stat`
lie in `[0, 16383]`, and whose `win_percent` equals `(n mod 512) / 100`,
hence lies in `[0, 5.11]`; at `n = 511` it exceeds `1`. -/
theorem C10_decode_postcondition :
    (∀ n : ℕ,
      ((GameSeed.from_int n).stat_range.stat_type = "hp"
          ∨ (GameSeed.from_int n).stat_range.stat_type = "dipl")
        ∧ (GameSeed.from_int n).stat_range.stat_type ≠ "diplomacy"
        ∧ 0 ≤ (GameSeed.from_int n).stat_range.min_stat
        ∧ (GameSeed.from_int n).stat_range.min_stat ≤ 16383
        ∧ 0 ≤ (GameSeed.from_int n).stat_range.max_stat
        ∧ (GameSeed.from_int n).stat_range.max_stat ≤ 16383
        ∧ (GameSeed.from_int n).stat_range.win_percent = ((n % 512 : ℕ) : ℚ) / 100
        ∧ 0 ≤ (GameSeed.from_int n).stat_range.win_percent
        ∧ (GameSeed.from_int n).stat_range.win_percent ≤ 511 / 100)
      ∧ 1 < (GameSeed.from_int 511).stat_range.win_percent := by
  have key : ∀ n : ℕ,
      ((GameSeed.from_int n).stat_range.stat_type = "hp"
          ∨ (GameSeed.from_int n).stat_range.stat_type = "dipl")
        ∧ (GameSeed.from_int n).stat_range.stat_type ≠ "diplomacy"
        ∧ 0 ≤ (GameSeed.from_int n).stat_range.min_stat
        ∧ (GameSeed.from_int n).stat_range.min_stat ≤ 16383
        ∧ 0 ≤ (GameSeed.from_int n).stat_range.max_stat
        ∧ (GameSeed.from_int n).stat_range.max_stat ≤ 16383
        ∧ (GameSeed.from_int n).stat_range.win_percent = ((n % 512 : ℕ) : ℚ) / 100
        ∧ 0 ≤ (GameSeed.from_int n).stat_range.win_percent
        ∧ (GameSeed.from_int n).stat_range.win_percent ≤ 511 / 100 := by
    intro n
    rw [GameSeed.from_int_eq]
    dsimp only
    have hmn : (n % 2 ^ 37) >>> 23 ≤ 16383 := by
      rw [Nat.shiftRight_eq_div_pow]
      have : n % 2 ^ 37 < 2 ^ 37 := Nat.mod_lt _ (by norm_num)
      omega
    have hmx : (n % 2 ^ 23) >>> 9 ≤ 16383 := by
      rw [Nat.shiftRight_eq_div_pow]
      have : n % 2 ^ 23 < 2 ^ 23 := Nat.mod_lt _ (by norm_num)
      omega
    have hw : n % 2 ^ 9 ≤ 511 := by
      have : n % 2 ^ 9 < 2 ^ 9 := Nat.mod_lt _ (by norm_num)
      omega
    refine ⟨?_, ?_, ?_, ?_, ?_, ?_, ?_, ?_, ?_⟩
    · split
      · exact Or.inl rfl
      · exact Or.inr rfl
    · split
      · decide
      · decide
    · exact Int.natCast_nonneg _
    · exact_mod_cast hmn
    · exact Int.natCast_nonneg _
    · exact_mod_cast hmx
    · norm_num
    · positivity
    · rw [div_le_div_iff₀ (by norm_num) (by norm_num)]
      have : ((n % 2 ^ 9 : ℕ) : ℚ) ≤ 511 := by exact_mod_cast hw
      nlinarith
  refine ⟨key, ?_⟩
  have h := (key 511).2.2.2.2.2.2.1
  rw [h]
  norm_num

end Adventure

namespace Adventure

/-- C6: determinism of the generator: two `Random` instances built from
seeds with equal integer values produce identical output sequences for
every identical sequence of operation calls. -/
theorem C6_determinism (s1 s2 : GameSeed)
    (h : GameSeed.toInt s1 = GameSeed.toInt s2) (ops : List RandOp) :
    (Random.ofSeed s1).outputs ops = (Random.ofSeed s2).outputs ops := by
  unfold Random.outputs Random.ofSeed
  rw [h]

/-- C6 witness: two distinct seed objects with equal integer values,
asked for `randint(1, 20)` five times, give identical sequences. -/
theorem C6_witness :
    (Random.ofSeed ⟨5, ⟨"hp", 1, 2, 1 / 2⟩⟩).outputs
        [RandOp.randint 1 20, RandOp.randint 1 20, RandOp.randint 1 20,
          RandOp.randint 1 20, RandOp.randint 1 20]
      = (Random.ofSeed ⟨7, ⟨"hp", 1, 2, 1 / 2⟩⟩).outputs
        [RandOp.randint 1 20, RandOp.randint 1 20, RandOp.randint 1 20,
          RandOp.randint 1 20, RandOp.randint 1 20] :=
  C6_determinism ⟨5, ⟨"hp", 1, 2, 1 / 2⟩⟩ ⟨7, ⟨"hp", 1, 2, 1 / 2⟩⟩
    (by
      simp only [GameSeed.toInt, GameSeed.timestamp, GameSeed.hp_or_diplo,
        GameSeed.min_stat, GameSeed.max_stat, GameSeed.win_pct,
        show GameSeed.TIMESTAMP_SHIFT = 38 from rfl]
      norm_num)
    [RandOp.randint 1 20, RandOp.randint 1 20, RandOp.randint 1 20,
      RandOp.randint 1 20, RandOp.randint 1 20]

/-- C8: state snapshot/restore round trip: capturing the generator state
with `getstate`, drawing, restoring with `setstate`, and drawing again
with the same operation yields the same value both times. -/
theorem C8_snapshot (r : Random) (op : RandOp) :
    ((((r.draw op).2).setstate r.getstate).draw op).1 = (r.draw op).1 := rfl

end Adventure
